import Mathlib

/-!
# Valence-Pi radial engine: shallow embedding and verification

This file embeds the state-evolution core of the Valence-Pi simulator
(`radial_engine/config.py`, `radial_engine/matrices.py`,
`radial_engine/dynamics.py`, `radial_engine/simulation.py`) and proves
properties of its evolution loop, matrix builders and simulation driver.

Vectors are lists of rationals; numpy operations that can raise are modelled
as `Except PyError` computations, with the error constructor recording the
kind of Python exception the corresponding numpy operation raises.
-/

namespace RadialEngine

/-- Kinds of Python exceptions the embedded numpy operations can raise. -/
inductive PyError where
  /-- numpy `ValueError` (negative dimensions in `np.zeros`, shape mismatch). -/
  | valueError : PyError
  /-- Python `IndexError` (out-of-bounds array indexing). -/
  | indexError : PyError
  /-- Python `TypeError` (unsupported operand types, e.g. `None * ndarray`). -/
  | typeError : PyError
deriving DecidableEq

instance {ε α : Type} [DecidableEq ε] [DecidableEq α] : DecidableEq (Except ε α) :=
  fun x y =>
    match x, y with
    | .ok a, .ok b =>
        if h : a = b then .isTrue (h ▸ rfl)
        else .isFalse (fun hc => h (Except.ok.inj hc))
    | .error a, .error b =>
        if h : a = b then .isTrue (h ▸ rfl)
        else .isFalse (fun hc => h (Except.error.inj hc))
    | .ok _, .error _ => .isFalse (fun hc => Except.noConfusion hc)
    | .error _, .ok _ => .isFalse (fun hc => Except.noConfusion hc)

/-- A state vector: an ordered sequence of scalar components. -/
abbrev Vec := List ℚ

/-- A matrix: a list of row vectors. -/
abbrev Mat := List Vec

/-! ## config.py -/

/-- `N_CORE = 7` (config.py line 4). -/
def N_CORE : Nat := 7

/-- `N_SURFACE = 15` (config.py line 5). -/
def N_SURFACE : Nat := 15

/-- `PROPAGATION_DAMPING = 0.62` (config.py line 8). -/
def PROPAGATION_DAMPING : ℚ := 62/100

/-! ## numpy primitives -/

/-- Elementwise subtraction `a - b`; numpy raises `ValueError` on a shape
mismatch of two same-rank arrays. -/
def npSub (a b : Vec) : Except PyError Vec :=
  if a.length = b.length then .ok (List.zipWith (fun x y => x - y) a b)
  else .error .valueError

/-- Elementwise addition `a + b` with the same shape rule as `npSub`. -/
def npAdd (a b : Vec) : Except PyError Vec :=
  if a.length = b.length then .ok (List.zipWith (fun x y => x + y) a b)
  else .error .valueError

/-- Scalar times vector, `damping * v`.  The scalar is the Python value of the
`damping` argument: `none` models Python `None`, for which `None * ndarray`
raises `TypeError`. -/
def npScale (d : Option ℚ) (v : Vec) : Except PyError Vec :=
  match d with
  | some q => .ok (v.map (fun x => q * x))
  | none => .error .typeError

/-- Dot product of two aligned vectors. -/
def dotT (row v : Vec) : ℚ := (List.zipWith (fun x y => x * y) row v).sum

/-- Matrix–vector product `M @ v`; numpy raises `ValueError` when the row
length of `M` differs from the length of `v`. -/
def npMatVec (M : Mat) (v : Vec) : Except PyError Vec :=
  if ∀ row ∈ M, row.length = v.length then .ok (M.map (fun row => dotT row v))
  else .error .valueError

/-- `np.clip(x, -1, 1)` on one component. -/
def clip1 (x : ℚ) : ℚ := min (max x (-1)) 1

/-- `np.clip(v, -1, 1)` componentwise. -/
def clipVec (v : Vec) : Vec := v.map clip1

/-- `np.zeros_like` for a vector of length `n`. -/
def zeros (n : Nat) : Vec := List.replicate n 0

/-! ## matrices.py -/

/-- `np.eye n`. -/
def npEye (n : Nat) : Mat :=
  (List.range n).map (fun i => (List.range n).map (fun j => if i = j then 1 else 0))

/-- `np.ones((m, n))`. -/
def npOnes (m n : Nat) : Mat := List.replicate m (List.replicate n (1 : ℚ))

/-- Scalar times matrix. -/
def matScale (c : ℚ) (M : Mat) : Mat := M.map (fun row => row.map (fun x => c * x))

/-- In-place entry assignment `M[r, c] = v`, modelled functionally. -/
def matSet (M : Mat) (r c : Nat) (v : ℚ) : Mat :=
  M.set r ((M.getD r []).set c v)

/-- `build_core_matrix` (matrices.py lines 5-16): `np.eye(N_CORE) * 0.85`,
then the double loop sets every off-diagonal entry to `0.12`. -/
def build_core_matrix : Mat :=
  (List.range N_CORE).foldl
    (fun M i =>
      (List.range N_CORE).foldl
        (fun M2 j => if i ≠ j then matSet M2 i j (12/100) else M2) M)
    (matScale (85/100) (npEye N_CORE))

/-- `build_surface_matrix` (matrices.py lines 18-51): `np.eye(N_SURFACE) * 0.6`
followed by six explicit entry assignments. -/
def build_surface_matrix : Mat :=
  matSet (matSet (matSet (matSet (matSet (matSet
    (matScale (6/10) (npEye N_SURFACE))
    7 4 (35/100)) 1 4 (45/100)) 7 13 (50/100)) 3 9 (40/100)) 13 8 (25/100))
    14 5 (-(30/100))

/-- `build_projection_matrix` (matrices.py lines 53-65):
`np.ones((N_SURFACE, N_CORE)) * 0.15` with `R[1, 6] = 0.55`. -/
def build_projection_matrix : Mat :=
  matSet (matScale (15/100) (npOnes N_SURFACE N_CORE)) 1 6 (55/100)

/-- `build_feedback_matrix` (matrices.py lines 67-79):
`np.eye(N_SURFACE) * 0.15` with `F[7, 3] = 0.20`. -/
def build_feedback_matrix : Mat :=
  matSet (matScale (15/100) (npEye N_SURFACE)) 7 3 (20/100)

/-! ## dynamics.py -/

/-- `if target is not None: delta += damping * (target - state)`
(dynamics.py lines 31-32 and 38-39); with no target the delta passes through. -/
def targetPull (damping : Option ℚ) (target : Option Vec) (state delta : Vec) :
    Except PyError Vec :=
  match target with
  | none => pure delta
  | some t => do
      let diff ← npSub t state
      let pull ← npScale damping diff
      npAdd delta pull

/-- `if M is not None: delta += M @ v` (dynamics.py lines 33-34 and 40-43). -/
def coupleWith (M : Option Mat) (v delta : Vec) : Except PyError Vec :=
  match M with
  | none => pure delta
  | some m => do
      let p ← npMatVec m v
      npAdd delta p

/-- `if L is not None and target_surface is None: surface_delta += L @ surface`
(dynamics.py lines 44-45). -/
def lateralCouple (L : Option Mat) (targetSurface : Option Vec)
    (surface delta : Vec) : Except PyError Vec :=
  match L, targetSurface with
  | some m, none => do
      let p ← npMatVec m surface
      npAdd delta p
  | _, _ => pure delta

/-- One iteration of the `for t in range(1, steps_val + 1)` loop body of
`evolve` (dynamics.py lines 28-52): accumulate the core and surface deltas
starting from `np.zeros_like` vectors, apply them, and clip the results to
[-1, 1]. -/
def evolveStep (damping : Option ℚ) (targetCore targetSurface : Option Vec)
    (C L R F : Option Mat) (core surface : Vec) :
    Except PyError (Vec × Vec) := do
  let coreDelta ← targetPull damping targetCore core (zeros core.length)
  let coreDelta ← coupleWith C core coreDelta
  let surfaceDelta ← targetPull damping targetSurface surface (zeros surface.length)
  let surfaceDelta ← coupleWith R core surfaceDelta
  let surfaceDelta ← coupleWith F surface surfaceDelta
  let surfaceDelta ← lateralCouple L targetSurface surface surfaceDelta
  let newCore ← npAdd core coreDelta
  let newSurface ← npAdd surface surfaceDelta
  pure (clipVec newCore, clipVec newSurface)

/-- The evolution loop: run `step` for `n` iterations, collecting the post-step
states in order (the entries written to `history_core[t]`/`history_surface[t]`
for `t = 1..n`). -/
def evolveLoop (n : Nat) (step : Vec → Vec → Except PyError (Vec × Vec))
    (core surface : Vec) : Except PyError (List Vec × List Vec) :=
  match n with
  | 0 => .ok ([], [])
  | Nat.succ m => do
      let cs ← step core surface
      let rest ← evolveLoop m step cs.1 cs.2
      pure (cs.1 :: rest.1, cs.2 :: rest.2)

/-- dynamics.py line 22: `np.zeros((steps_val + 1, N_CORE))` allocates the
history storage successfully exactly when the first dimension `steps_val + 1`
is non-negative. -/
def historyAllocated (steps : Int) : Bool := decide (0 ≤ steps + 1)

/-- `evolve` (dynamics.py lines 4-54).  `steps` is the integer value obtained
from the robust conversion at lines 14-17.  The `damping` parameter carries the
Python value passed at the call site (`none` models Python `None`); a call that
omits the keyword corresponds to `some PROPAGATION_DAMPING`, the signature
default.  Allocation of `np.zeros((steps_val + 1, n))` raises `ValueError` for
a negative first dimension, and the subsequent `history_core[0] = core` raises
`IndexError` when the first dimension is zero. -/
def evolve (core surface : Vec) (steps : Int)
    (targetCore targetSurface : Option Vec)
    (C L R F : Option Mat) (damping : Option ℚ) :
    Except PyError (List Vec × List Vec) :=
  if steps + 1 < 0 then .error .valueError
  else if steps + 1 = 0 then .error .indexError
  else do
    let hist ← evolveLoop steps.toNat
      (evolveStep damping targetCore targetSurface C L R F) core surface
    pure (core :: hist.1, surface :: hist.2)

/-! ## simulation.py -/

/-- `run_simulation` (simulation.py lines 9-43) for calls that supply explicit
initial vectors (the `initial_core is None` branch draws from
`np.random.uniform` and is outside this deterministic embedding).  It builds
the four matrices fresh and forwards its `damping` parameter — whose Python
default is `None` — to `evolve` as an explicit keyword argument. -/
def run_simulation (initialCore initialSurface : Vec)
    (targetCore targetSurface : Option Vec) (steps : Int) (damping : Option ℚ) :
    Except PyError (List Vec × List Vec) :=
  evolve initialCore initialSurface steps targetCore targetSurface
    (some build_core_matrix) (some build_surface_matrix)
    (some build_projection_matrix) (some build_feedback_matrix) damping

/-- All components of a vector lie in the closed interval [-1, 1]. -/
def InUnit (v : Vec) : Prop := ∀ x ∈ v, -1 ≤ x ∧ x ≤ 1

instance : DecidablePred InUnit := fun v => List.decidableBAll _ v

/-! ## Total (error-free) vector operations, used to state specifications -/

/-- Total elementwise subtraction of aligned vectors. -/
def subT (a b : Vec) : Vec := List.zipWith (fun x y => x - y) a b

/-- Total elementwise addition of aligned vectors. -/
def addT (a b : Vec) : Vec := List.zipWith (fun x y => x + y) a b

/-- Total scalar multiplication. -/
def smulT (q : ℚ) (v : Vec) : Vec := v.map (fun x => q * x)

/-- Total matrix–vector product for aligned shapes. -/
def matVecT (M : Mat) (v : Vec) : Vec := M.map (fun row => dotT row v)

/-- Modelled from the spec (§4.2 algorithm step 1): `coreDelta` is the damping
pull toward the core target when one is supplied, else the zero vector, plus
`C · core` added always, independent of whether a target is present. -/
def specCoreDelta (d : ℚ) (targetCore : Option Vec) (Cm : Mat) (core : Vec) :
    Vec :=
  addT
    (match targetCore with
      | some t => smulT d (subT t core)
      | none => zeros core.length)
    (matVecT Cm core)

/-- Modelled from the spec (§4.2 algorithm step 2): `surfaceDelta` is the
damping pull toward the surface target when one is supplied, else zero; plus
`R · core` always; plus `F · surface` always; plus `L · surface` only when no
surface target is supplied. -/
def specSurfaceDelta (d : ℚ) (targetSurface : Option Vec) (Lm Rm Fm : Mat)
    (core surface : Vec) : Vec :=
  let base :=
    match targetSurface with
    | some t => smulT d (subT t surface)
    | none => zeros surface.length
  let withR := addT base (matVecT Rm core)
  let withF := addT withR (matVecT Fm surface)
  match targetSurface with
  | none => addT withF (matVecT Lm surface)
  | some _ => withF

/-- The zero matrix of shape `m × n`. -/
def zeroMat (m n : Nat) : Mat := List.replicate m (zeros n)

/-- The unclipped pure-target update: each component moves a fraction `d` of
the way toward its target. -/
def pullVec (d : ℚ) (t v : Vec) : Vec :=
  List.zipWith (fun tx x => x + d * (tx - x)) t v

/-- Modelled from the spec: the core matrix described pointwise — `N_CORE ×
N_CORE` with every diagonal entry `0.85` and every off-diagonal entry `0.12`. -/
def coreMatrixSpec : Mat :=
  (List.range N_CORE).map (fun i =>
    (List.range N_CORE).map (fun j => if i = j then 85/100 else 12/100))

/-- Modelled from the spec: the projection matrix described pointwise —
`N_SURFACE × N_CORE`, every entry `0.15` except the single override at row 1,
column 6, which is `0.55`. -/
def projectionMatrixSpec : Mat :=
  (List.range N_SURFACE).map (fun i =>
    (List.range N_CORE).map (fun j => if i = 1 ∧ j = 6 then 55/100 else 15/100))

/-! ## Basic lemmas about the embedded operations -/

theorem npSub_eq_ok {a b : Vec} (h : a.length = b.length) :
    npSub a b = .ok (subT a b) := by
  simp [npSub, h, subT]

theorem npAdd_eq_ok {a b : Vec} (h : a.length = b.length) :
    npAdd a b = .ok (addT a b) := by
  simp [npAdd, h, addT]

theorem npScale_eq_ok (q : ℚ) (v : Vec) :
    npScale (some q) v = .ok (smulT q v) := rfl

theorem npMatVec_eq_ok {M : Mat} {v : Vec}
    (h : ∀ row ∈ M, row.length = v.length) :
    npMatVec M v = .ok (matVecT M v) := by
  unfold npMatVec
  rw [if_pos h]
  rfl

@[simp]
theorem subT_length (a b : Vec) : (subT a b).length = min a.length b.length :=
  List.length_zipWith _ _ _

@[simp]
theorem addT_length (a b : Vec) : (addT a b).length = min a.length b.length :=
  List.length_zipWith _ _ _

@[simp]
theorem smulT_length (q : ℚ) (v : Vec) : (smulT q v).length = v.length :=
  List.length_map _ _

@[simp]
theorem matVecT_length (M : Mat) (v : Vec) : (matVecT M v).length = M.length :=
  List.length_map _ _

@[simp]
theorem clipVec_length (v : Vec) : (clipVec v).length = v.length :=
  List.length_map _ _

@[simp]
theorem zeros_length (n : Nat) : (zeros n).length = n :=
  List.length_replicate _ _

@[simp]
theorem pullVec_length (d : ℚ) (t v : Vec) :
    (pullVec d t v).length = min t.length v.length :=
  List.length_zipWith _ _ _

theorem zeros_addT (v : Vec) : addT (zeros v.length) v = v := by
  induction v with
  | nil => rfl
  | cons x xs ih => simp [zeros, addT, List.zipWith] at ih ⊢; simpa using ih

theorem addT_zeros (v : Vec) : addT v (zeros v.length) = v := by
  induction v with
  | nil => rfl
  | cons x xs ih => simp [zeros, addT, List.zipWith] at ih ⊢; simpa using ih

theorem zeros_addT' {n : Nat} {v : Vec} (h : v.length = n) :
    addT (zeros n) v = v := by
  subst h
  exact zeros_addT v

theorem addT_zeros' {n : Nat} {v : Vec} (h : v.length = n) :
    addT v (zeros n) = v := by
  subst h
  exact addT_zeros v

theorem clip1_mem_unit (x : ℚ) : -1 ≤ clip1 x ∧ clip1 x ≤ 1 := by
  constructor
  · exact le_min (le_max_right x (-1)) (by norm_num)
  · exact min_le_right _ _

theorem clip1_eq_self {x : ℚ} (h1 : -1 ≤ x) (h2 : x ≤ 1) : clip1 x = x := by
  unfold clip1
  rw [max_eq_left h1, min_eq_left h2]

theorem clipVec_inUnit (v : Vec) : InUnit (clipVec v) := by
  intro x hx
  rcases List.mem_map.1 hx with ⟨y, _, rfl⟩
  exact clip1_mem_unit y

/-- Evaluation of the loop body of `evolve` when all four matrices are
supplied and all shapes line up: the per-step deltas are exactly the spec
formulas `specCoreDelta` and `specSurfaceDelta`. -/
theorem evolveStep_eval {d : ℚ} {tc ts : Option Vec} {Cm Lm Rm Fm : Mat}
    {core surface : Vec}
    (hC1 : Cm.length = core.length) (hC2 : ∀ row ∈ Cm, row.length = core.length)
    (hL1 : Lm.length = surface.length) (hL2 : ∀ row ∈ Lm, row.length = surface.length)
    (hR1 : Rm.length = surface.length) (hR2 : ∀ row ∈ Rm, row.length = core.length)
    (hF1 : Fm.length = surface.length) (hF2 : ∀ row ∈ Fm, row.length = surface.length)
    (htc : ∀ t ∈ tc, t.length = core.length)
    (hts : ∀ t ∈ ts, t.length = surface.length) :
    evolveStep (some d) tc ts (some Cm) (some Lm) (some Rm) (some Fm) core surface
      = .ok (clipVec (addT core (specCoreDelta d tc Cm core)),
             clipVec (addT surface (specSurfaceDelta d ts Lm Rm Fm core surface))) := by
  have eC : npMatVec Cm core = .ok (matVecT Cm core) := npMatVec_eq_ok hC2
  have eR : npMatVec Rm core = .ok (matVecT Rm core) := npMatVec_eq_ok hR2
  have eF : npMatVec Fm surface = .ok (matVecT Fm surface) := npMatVec_eq_ok hF2
  have eL : npMatVec Lm surface = .ok (matVecT Lm surface) := npMatVec_eq_ok hL2
  cases tc with
  | none =>
      cases ts with
      | none =>
          simp [evolveStep, targetPull, coupleWith, lateralCouple,
            npSub_eq_ok, npAdd_eq_ok, eC, eR, eF, eL, npScale,
            Bind.bind, Except.bind, pure, Except.pure, hC1, hL1, hR1, hF1,
            specCoreDelta, specSurfaceDelta, smulT, zeros_addT']
      | some u =>
          have hu : u.length = surface.length := hts u (by simp)
          simp [evolveStep, targetPull, coupleWith, lateralCouple,
            npSub_eq_ok, npAdd_eq_ok, eC, eR, eF, eL, npScale,
            Bind.bind, Except.bind, pure, Except.pure, hC1, hL1, hR1, hF1, hu,
            specCoreDelta, specSurfaceDelta, smulT, zeros_addT']
  | some t =>
      have ht : t.length = core.length := htc t (by simp)
      cases ts with
      | none =>
          simp [evolveStep, targetPull, coupleWith, lateralCouple,
            npSub_eq_ok, npAdd_eq_ok, eC, eR, eF, eL, npScale,
            Bind.bind, Except.bind, pure, Except.pure, hC1, hL1, hR1, hF1, ht,
            specCoreDelta, specSurfaceDelta, smulT, zeros_addT']
      | some u =>
          have hu : u.length = surface.length := hts u (by simp)
          simp [evolveStep, targetPull, coupleWith, lateralCouple,
            npSub_eq_ok, npAdd_eq_ok, eC, eR, eF, eL, npScale,
            Bind.bind, Except.bind, pure, Except.pure, hC1, hL1, hR1, hF1, ht,
            hu, specCoreDelta, specSurfaceDelta, smulT, zeros_addT']

/-- When no targets and no matrices are supplied, the loop body only clips. -/
theorem evolveStep_allNone (d : Option ℚ) (core surface : Vec) :
    evolveStep d none none none none none none core surface
      = .ok (clipVec core, clipVec surface) := by
  simp only [evolveStep, targetPull, coupleWith, lateralCouple, Bind.bind,
    Except.bind, pure, Except.pure]
  rw [npAdd_eq_ok (by simp [zeros]), npAdd_eq_ok (by simp [zeros])]
  simp only [Except.bind]
  rw [addT_zeros, addT_zeros]

theorem clipVec_eq_self {v : Vec} (h : InUnit v) : clipVec v = v := by
  induction v with
  | nil => rfl
  | cons x xs ih =>
      have hx := h x (List.mem_cons_self x xs)
      have hxs : InUnit xs := fun y hy => h y (List.mem_cons_of_mem x hy)
      simp only [clipVec, List.map_cons] at ih ⊢
      rw [clip1_eq_self hx.1 hx.2, ih hxs]

theorem clipVec_idem (v : Vec) : clipVec (clipVec v) = clipVec v :=
  clipVec_eq_self (clipVec_inUnit v)

theorem except_bind_ok {α β : Type} {e : Except PyError α}
    {f : α → Except PyError β} {b : β} (h : e >>= f = Except.ok b) :
    ∃ a, e = Except.ok a ∧ f a = Except.ok b := by
  cases e with
  | ok a => exact ⟨a, rfl, h⟩
  | error err => simp [Bind.bind, Except.bind] at h

/-- Whatever the arguments, a successful loop-body result is clipped, hence
each component lies in [-1, 1]. -/
theorem evolveStep_ok_inUnit {d : Option ℚ} {tc ts : Option Vec}
    {C L R F : Option Mat} {core surface c' s' : Vec}
    (h : evolveStep d tc ts C L R F core surface = .ok (c', s')) :
    InUnit c' ∧ InUnit s' := by
  unfold evolveStep at h
  obtain ⟨cd1, _, h⟩ := except_bind_ok h
  obtain ⟨cd2, _, h⟩ := except_bind_ok h
  obtain ⟨sd1, _, h⟩ := except_bind_ok h
  obtain ⟨sd2, _, h⟩ := except_bind_ok h
  obtain ⟨sd3, _, h⟩ := except_bind_ok h
  obtain ⟨sd4, _, h⟩ := except_bind_ok h
  obtain ⟨nc, _, h⟩ := except_bind_ok h
  obtain ⟨ns, _, h⟩ := except_bind_ok h
  have hp : (clipVec nc, clipVec ns) = (c', s') := by
    simpa [pure, Except.pure] using h
  obtain ⟨h1, h2⟩ := Prod.mk.injEq .. ▸ hp
  exact ⟨h1 ▸ clipVec_inUnit nc, h2 ▸ clipVec_inUnit ns⟩

/-- The loop body ignores `L` entirely whenever a surface target is given. -/
theorem evolveStep_L_irrel (d : Option ℚ) (tc : Option Vec) (u : Vec)
    (C L1 L2 R F : Option Mat) (core surface : Vec) :
    evolveStep d tc (some u) C L1 R F core surface
      = evolveStep d tc (some u) C L2 R F core surface := by
  cases L1 <;> cases L2 <;> rfl

/-- A successful run of the loop yields one entry per iteration. -/
theorem evolveLoop_length {n : Nat}
    {step : Vec → Vec → Except PyError (Vec × Vec)} {core surface : Vec}
    {p : List Vec × List Vec} (h : evolveLoop n step core surface = .ok p) :
    p.1.length = n ∧ p.2.length = n := by
  induction n generalizing core surface p with
  | zero =>
      unfold evolveLoop at h
      cases h
      exact ⟨rfl, rfl⟩
  | succ m ih =>
      unfold evolveLoop at h
      obtain ⟨cs, _, h⟩ := except_bind_ok h
      obtain ⟨rest, hrest, h⟩ := except_bind_ok h
      have hp : (cs.1 :: rest.1, cs.2 :: rest.2) = p := by
        simpa [pure, Except.pure] using h
      obtain ⟨h1, h2⟩ := ih hrest
      subst hp
      simp [h1, h2]

/-- Every entry a successful run of the evolution loop records is clipped. -/
theorem evolveLoop_inUnit {d : Option ℚ} {tc ts : Option Vec}
    {C L R F : Option Mat} {n : Nat} {core surface : Vec}
    {p : List Vec × List Vec}
    (h : evolveLoop n (evolveStep d tc ts C L R F) core surface = .ok p) :
    (∀ v ∈ p.1, InUnit v) ∧ (∀ v ∈ p.2, InUnit v) := by
  induction n generalizing core surface p with
  | zero =>
      unfold evolveLoop at h
      cases h
      exact ⟨by simp, by simp⟩
  | succ m ih =>
      unfold evolveLoop at h
      obtain ⟨cs, hcs, h⟩ := except_bind_ok h
      obtain ⟨rest, hrest, h⟩ := except_bind_ok h
      have hp : (cs.1 :: rest.1, cs.2 :: rest.2) = p := by
        simpa [pure, Except.pure] using h
      obtain ⟨hu1, hu2⟩ := evolveStep_ok_inUnit
        (show evolveStep d tc ts C L R F core surface = .ok (cs.1, cs.2) by
          simpa using hcs)
      obtain ⟨ih1, ih2⟩ := ih hrest
      subst hp
      constructor
      · intro v hv
        rcases List.mem_cons.1 hv with rfl | hv
        · exact hu1
        · exact ih1 v hv
      · intro v hv
        rcases List.mem_cons.1 hv with rfl | hv
        · exact hu2
        · exact ih2 v hv

theorem evolveLoop_one (step : Vec → Vec → Except PyError (Vec × Vec))
    (c s : Vec) :
    evolveLoop 1 step c s = step c s >>= fun cs => pure ([cs.1], [cs.2]) := rfl

/-- A step that fixes the pair `(core, surface)` makes the loop record that
pair at every iteration. -/
theorem evolveLoop_const {step : Vec → Vec → Except PyError (Vec × Vec)}
    {core surface : Vec} (hstep : step core surface = .ok (core, surface)) :
    ∀ n, evolveLoop n step core surface
      = .ok (List.replicate n core, List.replicate n surface) := by
  intro n
  induction n with
  | zero => rfl
  | succ m ih =>
      unfold evolveLoop
      rw [hstep]
      simp only [Bind.bind, Except.bind, ih, pure, Except.pure,
        List.replicate_succ]

/-- With no targets and no matrices, the loop clips once and then repeats the
clipped state. -/
theorem evolveLoop_allNone (d : Option ℚ) (core surface : Vec) :
    ∀ n, evolveLoop n (evolveStep d none none none none none none) core surface
      = .ok (List.replicate n (clipVec core), List.replicate n (clipVec surface)) := by
  intro n
  cases n with
  | zero => rfl
  | succ m =>
      unfold evolveLoop
      rw [evolveStep_allNone]
      simp only [Bind.bind, Except.bind]
      have hconst : evolveStep d none none none none none none
          (clipVec core) (clipVec surface) = .ok (clipVec core, clipVec surface) := by
        rw [evolveStep_allNone, clipVec_idem, clipVec_idem]
      rw [evolveLoop_const hconst]
      simp [pure, Except.pure, List.replicate_succ]

/-- For a non-negative step count, `evolve` is the loop prefixed by the
unmodified initial states. -/
theorem evolve_of_nonneg {core surface : Vec} {steps : Int}
    {tc ts : Option Vec} {C L R F : Option Mat} {d : Option ℚ}
    (h : 0 ≤ steps) :
    evolve core surface steps tc ts C L R F d
      = (evolveLoop steps.toNat (evolveStep d tc ts C L R F) core surface)
          >>= fun hist => pure (core :: hist.1, surface :: hist.2) := by
  unfold evolve
  rw [if_neg (by omega), if_neg (by omega)]

/-- With no targets and no matrices supplied, `evolve` succeeds for input
vectors of any lengths whatsoever: the histories are the inputs followed by
copies of their clips. -/
theorem evolve_allNone {core surface : Vec} {steps : Int} (d : Option ℚ)
    (hsteps : 0 ≤ steps) :
    evolve core surface steps none none none none none none d
      = .ok (core :: List.replicate steps.toNat (clipVec core),
             surface :: List.replicate steps.toNat (clipVec surface)) := by
  rw [evolve_of_nonneg hsteps, evolveLoop_allNone]
  simp [Bind.bind, Except.bind, pure, Except.pure]

theorem matScale_eye (c : ℚ) (n : Nat) :
    matScale c (npEye n)
      = (List.range n).map (fun i =>
          (List.range n).map (fun j => if i = j then c else 0)) := by
  simp [matScale, npEye, List.map_map, Function.comp, mul_ite, mul_one, mul_zero]

theorem matScale_ones (c : ℚ) (m n : Nat) :
    matScale c (npOnes m n) = List.replicate m (List.replicate n c) := by
  simp [matScale, npOnes, List.map_replicate, mul_one]

theorem dotT_zeros : ∀ (k : Nat) (v : Vec), dotT (zeros k) v = 0 := by
  intro k
  induction k with
  | zero => intro v; rfl
  | succ m ih =>
      intro v
      cases v with
      | nil => rfl
      | cons x xs =>
          simp only [zeros, List.replicate_succ, dotT, List.zipWith] at ih ⊢
          rw [List.sum_cons]
          simpa using ih xs

theorem matVecT_zeroMat (m k : Nat) (v : Vec) :
    matVecT (zeroMat m k) v = zeros m := by
  unfold matVecT zeroMat
  rw [List.map_replicate, dotT_zeros]
  rfl

theorem npMatVec_zeroMat (m : Nat) (v : Vec) :
    npMatVec (zeroMat m v.length) v = .ok (zeros m) := by
  rw [npMatVec_eq_ok, matVecT_zeroMat]
  intro row hrow
  rw [List.eq_of_mem_replicate hrow]
  simp

/-- With no targets and all four matrices zero (of the shapes the update uses),
one loop iteration of an in-range state is the identity. -/
theorem evolveStep_zeroMats {core surface : Vec} (d : Option ℚ)
    (hc : InUnit core) (hs : InUnit surface) :
    evolveStep d none none
      (some (zeroMat core.length core.length))
      (some (zeroMat surface.length surface.length))
      (some (zeroMat surface.length core.length))
      (some (zeroMat surface.length surface.length)) core surface
      = .ok (core, surface) := by
  have e1 : npMatVec (zeroMat core.length core.length) core
      = .ok (zeros core.length) := npMatVec_zeroMat _ _
  have e2 : npMatVec (zeroMat surface.length core.length) core
      = .ok (zeros surface.length) := npMatVec_zeroMat _ _
  have e3 : npMatVec (zeroMat surface.length surface.length) surface
      = .ok (zeros surface.length) := npMatVec_zeroMat _ _
  simp [evolveStep, targetPull, coupleWith, lateralCouple, e1, e2, e3,
    npAdd_eq_ok, Bind.bind, Except.bind, pure, Except.pure, zeros_addT',
    addT_zeros', clipVec_eq_self hc, clipVec_eq_self hs]

theorem pull1_mem_unit {d tx x : ℚ} (hd0 : 0 ≤ d) (hd1 : d ≤ 1)
    (hx1 : -1 ≤ x) (hx2 : x ≤ 1) (ht1 : -1 ≤ tx) (ht2 : tx ≤ 1) :
    -1 ≤ x + d * (tx - x) ∧ x + d * (tx - x) ≤ 1 := by
  constructor <;> nlinarith

theorem pull1_contract {d tx x : ℚ} (hd0 : 0 ≤ d) (hd1 : d ≤ 1) :
    |tx - (x + d * (tx - x))| ≤ |tx - x| := by
  have h : tx - (x + d * (tx - x)) = (1 - d) * (tx - x) := by ring
  rw [h, abs_mul, abs_of_nonneg (by linarith : (0:ℚ) ≤ 1 - d)]
  calc (1 - d) * |tx - x| ≤ 1 * |tx - x| :=
        mul_le_mul_of_nonneg_right (by linarith) (abs_nonneg _)
    _ = |tx - x| := one_mul _

theorem addT_smulT_subT (d : ℚ) :
    ∀ (t v : Vec), t.length = v.length →
      addT v (smulT d (subT t v)) = pullVec d t v := by
  intro t
  induction t with
  | nil =>
      intro v h
      cases v with
      | nil => rfl
      | cons x xs => simp at h
  | cons tx t' ih =>
      intro v h
      cases v with
      | nil => simp at h
      | cons x xs =>
          simp only [addT, smulT, subT, pullVec, List.zipWith, List.map] at ih ⊢
          rw [ih xs (by simpa using h)]

theorem pullVec_inUnit {d : ℚ} (hd0 : 0 ≤ d) (hd1 : d ≤ 1) :
    ∀ (t v : Vec), InUnit t → InUnit v → InUnit (pullVec d t v) := by
  intro t
  induction t with
  | nil => intro v _ _ y hy; simp [pullVec] at hy
  | cons tx t' ih =>
      intro v ht hv
      cases v with
      | nil => intro y hy; simp [pullVec] at hy
      | cons x xs =>
          intro y hy
          simp only [pullVec, List.zipWith] at hy
          rcases List.mem_cons.1 hy with rfl | hy
          · have h1 := ht tx (List.mem_cons_self _ _)
            have h2 := hv x (List.mem_cons_self _ _)
            exact pull1_mem_unit hd0 hd1 h2.1 h2.2 h1.1 h1.2
          · exact ih xs (fun z hz => ht z (List.mem_cons_of_mem _ hz))
              (fun z hz => hv z (List.mem_cons_of_mem _ hz)) y hy

theorem pullVec_contract_getD {d : ℚ} (hd0 : 0 ≤ d) (hd1 : d ≤ 1) :
    ∀ (t v : Vec), t.length = v.length → ∀ k : Nat,
      |t.getD k 0 - (pullVec d t v).getD k 0| ≤ |t.getD k 0 - v.getD k 0| := by
  intro t
  induction t with
  | nil =>
      intro v h k
      cases v with
      | nil => simp [pullVec]
      | cons x xs => simp at h
  | cons tx t' ih =>
      intro v h k
      cases v with
      | nil => simp at h
      | cons x xs =>
          cases k with
          | zero =>
              simp only [pullVec, List.zipWith, List.getD_cons_zero]
              exact pull1_contract hd0 hd1
          | succ m =>
              simp only [pullVec, List.zipWith, List.getD_cons_succ]
              exact ih xs (by simpa using h) m

/-- Pure target pull: with both targets supplied and no matrices, one loop
iteration moves each state a `d`-fraction toward its target and clips. -/
theorem evolveStep_pullOnly {d : ℚ} {t u core surface : Vec}
    (ht : t.length = core.length) (hu : u.length = surface.length) :
    evolveStep (some d) (some t) (some u) none none none none core surface
      = .ok (clipVec (pullVec d t core), clipVec (pullVec d u surface)) := by
  have e1 : npSub t core = .ok (subT t core) := npSub_eq_ok (by simp [ht])
  have e2 : npSub u surface = .ok (subT u surface) := npSub_eq_ok (by simp [hu])
  simp [evolveStep, targetPull, coupleWith, lateralCouple, e1, e2, npScale,
    npAdd_eq_ok, Bind.bind, Except.bind, pure, Except.pure, ht, hu,
    zeros_addT', addT_smulT_subT]
  constructor
  · rw [show List.map (fun x => d * x) (subT t core) = smulT d (subT t core)
        from rfl, addT_smulT_subT d t core ht]
  · rw [show List.map (fun x => d * x) (subT u surface) = smulT d (subT u surface)
        from rfl, addT_smulT_subT d u surface hu]

/-- The pure-target loop: every recorded state is the unclipped pull of its
predecessor and contracts the per-component distance to the target. -/
theorem evolveLoop_pull {d : ℚ} {tc ts : Vec} (hd0 : 0 ≤ d) (hd1 : d ≤ 1)
    (htc : InUnit tc) (hts : InUnit ts) :
    ∀ (n : Nat) (c s : Vec), InUnit c → InUnit s →
      tc.length = c.length → ts.length = s.length →
      ∃ a b,
        evolveLoop n (evolveStep (some d) (some tc) (some ts) none none none none) c s
          = .ok (a, b)
        ∧ List.Chain' (fun x y => y = pullVec d tc x ∧
            ∀ k, |tc.getD k 0 - y.getD k 0| ≤ |tc.getD k 0 - x.getD k 0|) (c :: a)
        ∧ List.Chain' (fun x y => y = pullVec d ts x ∧
            ∀ k, |ts.getD k 0 - y.getD k 0| ≤ |ts.getD k 0 - x.getD k 0|) (s :: b) := by
  intro n
  induction n with
  | zero => intro c s _ _ _ _; exact ⟨[], [], rfl, by simp, by simp⟩
  | succ m ih =>
      intro c s hc hs hlc hls
      have hcu : InUnit (pullVec d tc c) := pullVec_inUnit hd0 hd1 tc c htc hc
      have hsu : InUnit (pullVec d ts s) := pullVec_inUnit hd0 hd1 ts s hts hs
      obtain ⟨a, b, hloop, ch1, ch2⟩ := ih (pullVec d tc c) (pullVec d ts s)
        hcu hsu (by simp [hlc]) (by simp [hls])
      refine ⟨pullVec d tc c :: a, pullVec d ts s :: b, ?_, ?_, ?_⟩
      · unfold evolveLoop
        rw [evolveStep_pullOnly hlc hls, clipVec_eq_self hcu, clipVec_eq_self hsu]
        simp only [Bind.bind, Except.bind, hloop, pure, Except.pure]
      · exact List.chain'_cons.2
          ⟨⟨rfl, fun k => pullVec_contract_getD hd0 hd1 tc c hlc k⟩, ch1⟩
      · exact List.chain'_cons.2
          ⟨⟨rfl, fun k => pullVec_contract_getD hd0 hd1 ts s hls k⟩, ch2⟩

/-! ## Claims -/

/-- C2 (counterexample): the clamp invariant fails as stated — with an input
component outside [-1, 1] and `steps = 0`, the returned history contains the
unmodified out-of-range entry. -/
theorem clamp_invariant_fails_at_initial_entry :
    evolve [2] [0] 0 none none none none none none (some PROPAGATION_DAMPING)
      = .ok ([[2]], [[0]]) ∧ ¬ InUnit [(2 : ℚ)] := by
  decide

/-- C2 (amended): every component of every history entry from index 1 onward
lies in [-1, 1]; the index-0 entry is the unmodified input. -/
theorem clamp_invariant_from_step_one
    {core surface : Vec} {steps : Int} {tc ts : Option Vec}
    {C L R F : Option Mat} {d : Option ℚ} {hc hs : List Vec}
    (h : evolve core surface steps tc ts C L R F d = .ok (hc, hs)) :
    (∀ v ∈ hc.tail, InUnit v) ∧ (∀ v ∈ hs.tail, InUnit v) := by
  unfold evolve at h
  split at h
  · exact Except.noConfusion h
  · split at h
    · exact Except.noConfusion h
    · obtain ⟨hist, hloop, h⟩ := except_bind_ok h
      have hp : (core :: hist.1, surface :: hist.2) = (hc, hs) := by
        simpa [pure, Except.pure] using h
      obtain ⟨u1, u2⟩ := evolveLoop_inUnit hloop
      have h1 : core :: hist.1 = hc := congrArg Prod.fst hp
      have h2 : surface :: hist.2 = hs := congrArg Prod.snd hp
      rw [← h1, ← h2]
      exact ⟨by simpa using u1, by simpa using u2⟩

/-- C2 witness: the amended invariant at a concrete out-of-range input. -/
theorem clamp_invariant_from_step_one_witness :
    (∀ v ∈ ([[(2:ℚ)], [1]] : List Vec).tail, InUnit v)
      ∧ (∀ v ∈ ([[(0:ℚ)], [0]] : List Vec).tail, InUnit v) :=
  clamp_invariant_from_step_one
    (show evolve [2] [0] 1 none none none none none none (some PROPAGATION_DAMPING)
        = .ok ([[2], [1]], [[0], [0]]) by
      rw [evolve_allNone (some PROPAGATION_DAMPING) (by decide)]
      norm_num [clipVec, clip1, min_def, max_def, List.replicate_one])

/-- C3: for a non-negative step count, a successful `evolve` returns two
histories of length `steps + 1` whose first entries are the unmodified input
vectors — whatever the inputs, in-range or not. -/
theorem history_length_and_initial_entry
    {core surface : Vec} {steps : Int} {tc ts : Option Vec}
    {C L R F : Option Mat} {d : Option ℚ} {hc hs : List Vec}
    (hsteps : 0 ≤ steps)
    (h : evolve core surface steps tc ts C L R F d = .ok (hc, hs)) :
    hc.length = steps.toNat + 1 ∧ hs.length = steps.toNat + 1
      ∧ hc.head? = some core ∧ hs.head? = some surface := by
  rw [evolve_of_nonneg hsteps] at h
  obtain ⟨hist, hloop, h⟩ := except_bind_ok h
  have hp : (core :: hist.1, surface :: hist.2) = (hc, hs) := by
    simpa [pure, Except.pure] using h
  obtain ⟨l1, l2⟩ := evolveLoop_length hloop
  have h1 : core :: hist.1 = hc := congrArg Prod.fst hp
  have h2 : surface :: hist.2 = hs := congrArg Prod.snd hp
  rw [← h1, ← h2]
  simp [l1, l2]

/-- C3 witness: concrete run with an out-of-range input whose t=0 entry is
returned unmodified. -/
theorem history_length_and_initial_entry_witness :
    ([[(2:ℚ)], [1], [1]] : List Vec).length = (2 : Int).toNat + 1
      ∧ ([[(0:ℚ)], [0], [0]] : List Vec).length = (2 : Int).toNat + 1
      ∧ ([[(2:ℚ)], [1], [1]] : List Vec).head? = some [2]
      ∧ ([[(0:ℚ)], [0], [0]] : List Vec).head? = some [0] :=
  history_length_and_initial_entry (by decide)
    (show evolve [2] [0] 2 none none none none none none (some PROPAGATION_DAMPING)
        = .ok ([[2], [1], [1]], [[0], [0], [0]]) by
      rw [evolve_allNone (some PROPAGATION_DAMPING) (by decide)]
      norm_num [clipVec, clip1, min_def, max_def]
      exact ⟨rfl, rfl⟩)

/-- C4 (counterexample): with no targets and all-zero matrices, an
out-of-range initial state is still changed by the per-step clipping, so not
every history entry equals the initial state. -/
theorem zero_matrix_fixed_point_fails_out_of_range :
    evolve [2] [0] 1 none none (some [[0]]) (some [[0]]) (some [[0]])
        (some [[0]]) (some PROPAGATION_DAMPING)
      = .ok ([[2], [1]], [[0], [0]]) ∧ ([(1:ℚ)] : Vec) ≠ [2] := by
  have hstep : evolveStep (some PROPAGATION_DAMPING) none none (some [[0]])
      (some [[0]]) (some [[0]]) (some [[0]]) [2] [0] = .ok ([1], [0]) := by
    simp [evolveStep, targetPull, coupleWith, lateralCouple, npMatVec, npAdd,
      dotT, zeros, clipVec, clip1, Bind.bind, Except.bind, pure, Except.pure]
  constructor
  · rw [evolve_of_nonneg (by decide),
      show ((1 : Int).toNat) = 1 from rfl, evolveLoop_one, hstep]
    simp [Bind.bind, Except.bind, pure, Except.pure]
  · decide

/-- C4 (amended): for initial states with all components in [-1, 1], no
targets and all-zero matrices, the state never changes — every history entry
equals the initial state. -/
theorem zero_matrix_fixed_point_in_range
    {core surface : Vec} {steps : Int} (d : Option ℚ)
    (hc : InUnit core) (hs : InUnit surface) (hsteps : 0 ≤ steps) :
    evolve core surface steps none none
      (some (zeroMat core.length core.length))
      (some (zeroMat surface.length surface.length))
      (some (zeroMat surface.length core.length))
      (some (zeroMat surface.length surface.length)) d
      = .ok (List.replicate (steps.toNat + 1) core,
             List.replicate (steps.toNat + 1) surface) := by
  rw [evolve_of_nonneg hsteps, evolveLoop_const (evolveStep_zeroMats d hc hs)]
  simp [Bind.bind, Except.bind, pure, Except.pure, List.replicate_succ]

/-- C4 witness: concrete in-range state fixed by the zero-matrix dynamics. -/
theorem zero_matrix_fixed_point_in_range_witness :
    evolve [1] [0, -1] 2 none none
      (some (zeroMat ([(1:ℚ)] : Vec).length ([(1:ℚ)] : Vec).length))
      (some (zeroMat ([(0:ℚ), -1] : Vec).length ([(0:ℚ), -1] : Vec).length))
      (some (zeroMat ([(0:ℚ), -1] : Vec).length ([(1:ℚ)] : Vec).length))
      (some (zeroMat ([(0:ℚ), -1] : Vec).length ([(0:ℚ), -1] : Vec).length))
      (some PROPAGATION_DAMPING)
      = .ok (List.replicate ((2 : Int).toNat + 1) [1],
             List.replicate ((2 : Int).toNat + 1) [0, -1]) :=
  zero_matrix_fixed_point_in_range (some PROPAGATION_DAMPING)
    (by decide) (by decide) (by decide)

/-- C5: the built core matrix is exactly the described 7×7 matrix (0.85 on
the diagonal, 0.12 off it), and the built projection matrix is exactly the
described 15×7 matrix (uniform 0.15 with the row-1, column-6 override 0.55). -/
theorem matrix_builders_exact :
    build_core_matrix = coreMatrixSpec
      ∧ build_projection_matrix = projectionMatrixSpec := by
  constructor
  · unfold build_core_matrix
    rw [matScale_eye]
    rfl
  · unfold build_projection_matrix
    rw [matScale_ones]
    rfl

/-- C6 (counterexample): a core vector whose length differs from the
configured `N_CORE` is not rejected — with no matrices and no targets the
call succeeds. -/
theorem shape_mismatch_not_rejected :
    ([(1:ℚ), 0, 0] : Vec).length ≠ N_CORE
      ∧ ([(0:ℚ)] : Vec).length ≠ N_SURFACE
      ∧ evolve [1, 0, 0] [0] 0 none none none none none none
          (some PROPAGATION_DAMPING)
        = .ok ([[1, 0, 0]], [[0]]) := by
  decide

/-- C6 (amended): `evolve` performs no validation of the input lengths
against the configured sizes — with no matrices and no targets it succeeds
for input vectors of every length, deriving the working sizes from the
inputs themselves. -/
theorem evolve_no_shape_validation
    {core surface : Vec} {steps : Int} (d : Option ℚ) (hsteps : 0 ≤ steps) :
    evolve core surface steps none none none none none none d
      = .ok (core :: List.replicate steps.toNat (clipVec core),
             surface :: List.replicate steps.toNat (clipVec surface)) :=
  evolve_allNone d hsteps

/-- C6 witness: the no-validation theorem at mismatched concrete lengths. -/
theorem evolve_no_shape_validation_witness :
    evolve [1/2, 0, 0] [0] 1 none none none none none none
        (some PROPAGATION_DAMPING)
      = .ok ([(1:ℚ)/2, 0, 0] :: List.replicate (1 : Int).toNat (clipVec [1/2, 0, 0]),
             [(0:ℚ)] :: List.replicate (1 : Int).toNat (clipVec [0])) :=
  evolve_no_shape_validation (some PROPAGATION_DAMPING) (by decide)

/-- C7 (counterexample): at `steps = -1` the history storage is allocated
(zero rows) and the failure is the out-of-bounds write of the initial entry,
not a pre-allocation rejection; at `steps = -2` the allocation itself fails. -/
theorem negative_steps_error_after_allocation :
    historyAllocated (-1) = true
      ∧ evolve [0] [0] (-1) none none none none none none
          (some PROPAGATION_DAMPING) = .error .indexError
      ∧ evolve [0] [0] (-2) none none none none none none
          (some PROPAGATION_DAMPING) = .error .valueError := by
  decide

/-- C7 (amended): every negative step count makes `evolve` (and
`run_simulation`) fail with an error and produce no history, but the error
comes from the history allocation or the initial-entry write, not from a
step-count check performed before allocating. -/
theorem negative_steps_error_no_history
    {core surface : Vec} {tc ts : Option Vec} {C L R F : Option Mat}
    {d : Option ℚ} {steps : Int} (h : steps < 0) :
    evolve core surface steps tc ts C L R F d
        = .error (if steps + 1 < 0 then PyError.valueError else PyError.indexError)
      ∧ run_simulation core surface tc ts steps d
        = .error (if steps + 1 < 0 then PyError.valueError else PyError.indexError) := by
  have he : ∀ (C2 L2 R2 F2 : Option Mat),
      evolve core surface steps tc ts C2 L2 R2 F2 d
        = .error (if steps + 1 < 0 then PyError.valueError else PyError.indexError) := by
    intro C2 L2 R2 F2
    unfold evolve
    by_cases h1 : steps + 1 < 0
    · rw [if_pos h1, if_pos h1]
    · rw [if_pos (by omega : steps + 1 = 0)]
      rw [if_neg h1, if_neg h1]
  exact ⟨he C L R F, he _ _ _ _⟩

/-- C7 witness: the amended statement at `steps = -1`. -/
theorem negative_steps_error_no_history_witness :
    evolve [0] [0] (-1) none none none none none none (some PROPAGATION_DAMPING)
        = .error (if (-1 : Int) + 1 < 0 then PyError.valueError else PyError.indexError)
      ∧ run_simulation [0] [0] none none (-1) (some PROPAGATION_DAMPING)
        = .error (if (-1 : Int) + 1 < 0 then PyError.valueError else PyError.indexError) :=
  negative_steps_error_no_history (by decide)

/-- C8: `run_simulation` called with a core target and its default damping
(`None`) forwards `None` to `evolve`, which computes `None * (target - core)`
and fails with a `TypeError` — the configured default damping is not used and
the call does not succeed. -/
theorem run_simulation_default_damping_type_error :
    run_simulation (List.replicate 7 0) (List.replicate 15 0)
      (some (List.replicate 7 1)) none 1 none = .error .typeError := by
  decide

/-- C9: `run_simulation` with explicit initial state is deterministic — two
calls with identical initial vectors, targets, steps and damping return
identical history pairs. -/
theorem run_simulation_deterministic
    (c1 s1 c2 s2 : Vec) (tc1 ts1 tc2 ts2 : Option Vec) (n1 n2 : Int)
    (d1 d2 : Option ℚ)
    (hcvec : c1 = c2) (hsvec : s1 = s2) (htc : tc1 = tc2) (hts : ts1 = ts2)
    (hn : n1 = n2) (hd : d1 = d2) :
    run_simulation c1 s1 tc1 ts1 n1 d1 = run_simulation c2 s2 tc2 ts2 n2 d2 := by
  subst hcvec
  subst hsvec
  subst htc
  subst hts
  subst hn
  subst hd
  rfl

/-- C1: with all four matrices supplied and shapes aligned, each evolution
step computes the deltas exactly as specified — `specCoreDelta` adds
`C · core` always, independent of the core target, and `specSurfaceDelta`
adds `L · surface` only when no surface target is supplied; consequently,
whenever a surface target is supplied the whole trajectory of `evolve` is
independent of `L`. -/
theorem evolve_step_deltas_and_L_independence
    {d : ℚ} {tc ts : Option Vec} {Cm Lm Rm Fm : Mat} {core surface : Vec}
    (hC1 : Cm.length = core.length) (hC2 : ∀ row ∈ Cm, row.length = core.length)
    (hL1 : Lm.length = surface.length) (hL2 : ∀ row ∈ Lm, row.length = surface.length)
    (hR1 : Rm.length = surface.length) (hR2 : ∀ row ∈ Rm, row.length = core.length)
    (hF1 : Fm.length = surface.length) (hF2 : ∀ row ∈ Fm, row.length = surface.length)
    (htc : ∀ t ∈ tc, t.length = core.length)
    (hts : ∀ t ∈ ts, t.length = surface.length) :
    (evolveStep (some d) tc ts (some Cm) (some Lm) (some Rm) (some Fm) core surface
       = .ok (clipVec (addT core (specCoreDelta d tc Cm core)),
              clipVec (addT surface (specSurfaceDelta d ts Lm Rm Fm core surface))))
    ∧ ∀ (u : Vec) (L1 L2 : Mat) (steps : Int),
        evolve core surface steps tc (some u) (some Cm) (some L1) (some Rm)
            (some Fm) (some d)
          = evolve core surface steps tc (some u) (some Cm) (some L2) (some Rm)
            (some Fm) (some d) := by
  constructor
  · exact evolveStep_eval hC1 hC2 hL1 hL2 hR1 hR2 hF1 hF2 htc hts
  · intro u L1 L2 steps
    unfold evolve
    have hstep : evolveStep (some d) tc (some u) (some Cm) (some L1) (some Rm)
          (some Fm)
        = evolveStep (some d) tc (some u) (some Cm) (some L2) (some Rm)
          (some Fm) := by
      funext c s
      exact evolveStep_L_irrel (some d) tc u (some Cm) (some L1) (some L2)
        (some Rm) (some Fm) c s
    rw [hstep]

/-- C1 witness: the step formula and `L`-independence at a concrete input. -/
theorem evolve_step_deltas_and_L_independence_witness :
    (evolveStep (some (1/2)) (some [1]) (some [0]) (some [[1]]) (some [[2]])
        (some [[3]]) (some [[4]]) [0] [0]
       = .ok (clipVec (addT [0] (specCoreDelta (1/2) (some [1]) [[1]] [0])),
              clipVec (addT [0]
                (specSurfaceDelta (1/2) (some [0]) [[2]] [[3]] [[4]] [0] [0]))))
    ∧ ∀ (u : Vec) (L1 L2 : Mat) (steps : Int),
        evolve [0] [0] steps (some [1]) (some u) (some [[1]]) (some L1)
            (some [[3]]) (some [[4]]) (some (1/2))
          = evolve [0] [0] steps (some [1]) (some u) (some [[1]]) (some L2)
            (some [[3]]) (some [[4]]) (some (1/2)) :=
  evolve_step_deltas_and_L_independence (by decide) (by decide) (by decide)
    (by decide) (by decide) (by decide) (by decide) (by decide) (by decide)
    (by decide)

/-- C10: pure target pull is a per-component contraction — with both targets
supplied, all matrices omitted, damping in [0, 1] and all states and targets
in [-1, 1], `evolve` succeeds and every history entry is the exact unclipped
pull of its predecessor (clamping never activates), with the distance of each
component to its target weakly decreasing at every step. -/
theorem pure_target_pull_contracts
    {core surface tc ts : Vec} {steps : Int} {d : ℚ}
    (hd0 : 0 ≤ d) (hd1 : d ≤ 1) (hsteps : 0 ≤ steps)
    (hc : InUnit core) (hs : InUnit surface) (htc : InUnit tc) (hts : InUnit ts)
    (hlc : tc.length = core.length) (hls : ts.length = surface.length) :
    ∃ hcHist hsHist,
      evolve core surface steps (some tc) (some ts) none none none none (some d)
        = .ok (hcHist, hsHist)
      ∧ List.Chain' (fun x y => y = pullVec d tc x ∧
          ∀ k, |tc.getD k 0 - y.getD k 0| ≤ |tc.getD k 0 - x.getD k 0|) hcHist
      ∧ List.Chain' (fun x y => y = pullVec d ts x ∧
          ∀ k, |ts.getD k 0 - y.getD k 0| ≤ |ts.getD k 0 - x.getD k 0|) hsHist := by
  obtain ⟨a, b, hloop, ch1, ch2⟩ := evolveLoop_pull hd0 hd1 htc hts
    steps.toNat core surface hc hs hlc hls
  refine ⟨core :: a, surface :: b, ?_, ch1, ch2⟩
  rw [evolve_of_nonneg hsteps]
  simp only [Bind.bind, Except.bind, hloop, pure, Except.pure]

/-- C10 witness: the contraction statement at a concrete in-range input. -/
theorem pure_target_pull_contracts_witness :
    ∃ hcHist hsHist,
      evolve [0] [0, 1] 2 (some [1]) (some [-1, 0]) none none none none
          (some (1/2))
        = .ok (hcHist, hsHist)
      ∧ List.Chain' (fun x y => y = pullVec (1/2) [1] x ∧
          ∀ k, |([(1:ℚ)] : Vec).getD k 0 - y.getD k 0|
            ≤ |([(1:ℚ)] : Vec).getD k 0 - x.getD k 0|) hcHist
      ∧ List.Chain' (fun x y => y = pullVec (1/2) [-1, 0] x ∧
          ∀ k, |([(-1:ℚ), 0] : Vec).getD k 0 - y.getD k 0|
            ≤ |([(-1:ℚ), 0] : Vec).getD k 0 - x.getD k 0|) hsHist :=
  pure_target_pull_contracts (by norm_num) (by norm_num) (by decide)
    (by decide) (by decide) (by decide) (by decide) (by decide) (by decide)

/-- C9 witness: determinism at a concrete input. -/
theorem run_simulation_deterministic_witness :
    run_simulation (List.replicate 7 0) (List.replicate 15 0) none none 3
        (some PROPAGATION_DAMPING)
      = run_simulation (List.replicate 7 0) (List.replicate 15 0) none none 3
        (some PROPAGATION_DAMPING) :=
  run_simulation_deterministic _ _ _ _ _ _ _ _ _ _ _ _ rfl rfl rfl rfl rfl rfl

end RadialEngine
